import Mathlib

/-!
# Shallow embedding of netclient's per-peer UDP relay core

This file embeds the functions of `nmproxy/proxy/proxy_helper.go`
(`Reset`, `pullLatestConfig`, the `toRemote` forwarding loop, `GetFreeIp`,
`PeerConnectionStatus`) as executable Lean definitions, and proves or
refutes the specification's claims about them.

External effects (socket reads/writes, UDP dialing, the packet transform,
the start of a replacement proxy) are passed in as explicit oracles; shared
mutable state (the peer registry, the metrics sink) is threaded explicitly.
-/

namespace Netclient

/-- A UDP address: 32-bit IPv4 address (as a `Nat`) plus a port. -/
structure UDPAddr where
  ip : Nat
  port : Nat
deriving DecidableEq, Repr

/-- The slice of `models.Proxy` that `proxy_helper.go` reads:
peer identity, the peer's real endpoint, the TURN transport reference and
the two mode flags.  `turnConn` is an opaque transport identifier. -/
structure ProxyCfg where
  peerPublicKey : String
  peerEndpoint : Option UDPAddr
  turnConn : Option Nat
  proxyStatus : Bool
  usingTurn : Bool
deriving DecidableEq, Repr

/-- Modelled from the spec: a `PeerConnRegistry` entry ("`models.Conn`",
declared outside the excerpt).  Holds the peer's current proxy config, the
current local-socket reference and the set of servers the peer is
registered under (the keys of `ServerMap`). -/
structure ConnEntry where
  config : ProxyCfg
  localConn : Nat
  serverMap : List String
deriving DecidableEq, Repr

/-- Modelled from the spec: the hash-indexed registry entry
(`models.RemotePeer`, declared outside the excerpt).  `Reset` only updates
its `LocalConn` field. -/
structure HashEntry where
  peerKey : String
  localConn : Nat
deriving DecidableEq, Repr

/-- Modelled from the spec: the dual-indexed `PeerConnRegistry`
(`nmproxy/config`, declared outside the excerpt): one map keyed by peer
public key, one keyed by the derived peer hash. -/
structure Registry where
  peers : List (String × ConnEntry)
  peersByHash : List (String × HashEntry)
deriving DecidableEq, Repr

/-- Modelled from the spec: `GetCfg().GetPeer` — lookup by public key. -/
def Registry.getPeer (r : Registry) (key : String) : Option ConnEntry :=
  (r.peers.find? (fun e => e.1 = key)).map Prod.snd

/-- Modelled from the spec: `GetCfg().SavePeer` — upsert by public key. -/
def Registry.savePeer (r : Registry) (key : String) (e : ConnEntry) : Registry :=
  { r with peers := (key, e) :: r.peers.filter (fun p => p.1 ≠ key) }

/-- Modelled from the spec: `GetCfg().GetPeerInfoByHash` — lookup by hash. -/
def Registry.getPeerInfoByHash (r : Registry) (h : String) : Option HashEntry :=
  (r.peersByHash.find? (fun e => e.1 = h)).map Prod.snd

/-- Modelled from the spec: `GetCfg().SavePeerByHash` — upsert by hash. -/
def Registry.savePeerByHash (r : Registry) (h : String) (e : HashEntry) : Registry :=
  { r with peersByHash := (h, e) :: r.peersByHash.filter (fun p => p.1 ≠ h) }

/-- Modelled from the spec: `models.ConvPeerKeyToHash`, a compact derived
identifier for a peer public key (declared outside the excerpt).  The
claims depend only on it being a fixed function of the key. -/
def ConvPeerKeyToHash (key : String) : String :=
  "hash:" ++ key

/-- State of a Go channel as seen by a sender: buffer capacity, number of
queued (unconsumed) values, and whether a receiver is currently blocked
waiting on the channel. -/
structure ChanState where
  capacity : Nat
  queued : Nat
  receiverWaiting : Bool
deriving DecidableEq, Repr

/-- Go semantics of a bare send `ch <- v`: the sender blocks exactly when
no receiver is waiting and the buffer is full. -/
def bareSendBlocks (c : ChanState) : Bool :=
  !c.receiverWaiting && decide (c.capacity ≤ c.queued)

/-- The method `Proxy.pullLatestConfig`: refresh `PeerEndpoint` and `TurnConn` from
the registry entry; `peer not found` when the lookup misses. -/
def pullLatestConfig (r : Registry) (cfg : ProxyCfg) : Except String ProxyCfg :=
  match r.getPeer cfg.peerPublicKey with
  | some peer =>
      .ok { cfg with peerEndpoint := peer.config.peerEndpoint,
                     turnConn := peer.config.turnConn }
  | none => .error "peer not found"

/-- Observable outcome of one `Proxy.Reset` call. -/
structure ResetOutcome where
  /-- Whether `p.Close()` ran (it always does, first thing). -/
  closedOld : Bool
  /-- Whether `New(p.Config)` was reached: a replacement proxy was constructed. -/
  constructedNew : Bool
  /-- the replacement's `Start()` succeeded: a new forwarding loop runs. -/
  startedLoop : Bool
  /-- the `peer not found` error from `pullLatestConfig` was logged. -/
  loggedPeerNotFound : Bool
  /-- the registry after the call. -/
  registry : Registry
  /-- the send on `config.DumpSignalChan` was reached. -/
  signalSent : Bool
  /-- the sender blocked on that send (given the channel's state). -/
  blockedOnSignal : Bool
deriving Repr

/-- The method `Proxy.Reset`, with the replacement proxy's `Start()` result and the
local socket it binds passed as oracles (`Start` is outside the excerpt;
per the spec it binds `localConn`, rewires the tunnel endpoint and
launches the loop, failing synchronously otherwise), and the state of
`config.DumpSignalChan` passed in to interpret the final bare send. -/
def Reset (r : Registry) (cfg : ProxyCfg) (startOk : Bool)
    (newLocalConn : Nat) (ch : ChanState) : ResetOutcome :=
  -- p.Close()
  if cfg.peerEndpoint = none then
    -- early return: nothing constructed, registry untouched, no signal
    ⟨true, false, false, false, r, false, false⟩
  else
    -- pullLatestConfig; on error the code LOGS and falls through (no return)
    let pulled := pullLatestConfig r cfg
    let cfg' := match pulled with
      | .ok c => c
      | .error _ => cfg
    let loggedMiss := match pulled with
      | .ok _ => false
      | .error _ => true
    -- p = New(p.Config); err := p.Start()
    if !startOk then
      ⟨true, true, false, loggedMiss, r, false, false⟩
    else
      -- update peer configs in both registry indices, where present
      let r1 := match r.getPeer cfg'.peerPublicKey with
        | some peer =>
            r.savePeer cfg'.peerPublicKey
              { peer with config := cfg', localConn := newLocalConn }
        | none => r
      let r2 := match r1.getPeerInfoByHash (ConvPeerKeyToHash cfg'.peerPublicKey) with
        | some peer =>
            r1.savePeerByHash (ConvPeerKeyToHash cfg'.peerPublicKey)
              { peer with localConn := newLocalConn }
        | none => r1
      -- config.DumpSignalChan <- struct{}{}   (a bare, unconditional send)
      ⟨true, true, true, loggedMiss, r2, true, bareSendBlocks ch⟩

/-- The slice of `metrics.Metric` that `toRemote` touches: the cumulative
"bytes sent" counter (`TrafficSent`, an `int64` in Go; modelled as an
unbounded `Int`, which is exact for all executions within `int64` range). -/
structure Metric where
  trafficSent : Int
deriving DecidableEq, Repr

/-- The metrics sink: per-(server, peer-key) accumulators, threaded
explicitly.  `getMetric`/`updateMetric` embed the external
`metrics.GetMetric` / `metrics.UpdateMetric` read-modify-write pair. -/
def MetricsState := List ((String × String) × Metric)

/-- Model of `metrics.GetMetric(server, peerKey)`: current accumulator, or the
zero value when none is recorded yet. -/
def getMetric (ms : MetricsState) (srv key : String) : Metric :=
  ((ms.find? (fun e => e.1 = (srv, key))).map Prod.snd).getD ⟨0⟩

/-- Model of `metrics.UpdateMetric(server, peerKey, m)`: store the accumulator
(entries earlier in the list shadow later ones, so consing is the map
update). -/
def updateMetric (ms : MetricsState) (srv key : String) (m : Metric) : MetricsState :=
  ((srv, key), m) :: ms

/-- The body of the goroutine `toRemote` spawns per datagram
(proxy_helper.go lines 49–60): look the peer up only when `ProxyStatus`
is set (otherwise `peerConnCfg` stays the zero `models.Conn`), then for
every server in its `ServerMap` add the read length `n` to that server's
"bytes sent" metric. -/
def updateSentMetrics (ms : MetricsState) (r : Registry) (cfg : ProxyCfg)
    (n : Nat) : MetricsState :=
  let peerConnCfg : List String :=
    if cfg.proxyStatus then
      match r.getPeer cfg.peerPublicKey with
      | some peer => peer.serverMap
      | none => []
    else []
  peerConnCfg.foldl (fun acc srv =>
    let metric := getMetric acc srv cfg.peerPublicKey
    updateMetric acc srv cfg.peerPublicKey
      ⟨metric.trafficSent + (n : Int)⟩) ms

/-- Result of `p.LocalConn.Read(buf)`: a datagram (its bytes), or a read
error. -/
inductive ReadResult where
  | ok (data : List Nat)
  | err
deriving DecidableEq, Repr

/-- The external `packet.ProcessPacketBeforeSending(buf, n, srcKey, dstKey)` returns a
re-encoded buffer/length plus the two peer-hash strings — and no error.
An oracle stands in for it; its first component is the `buf[:n]` payload
it produces. -/
def Transform := List Nat → List Nat × String × String

/-- Observable outcome of one iteration of the `toRemote` loop. -/
structure StepOutcome where
  /-- the loop returned (only a read error does this). -/
  terminated : Bool
  /-- payload handed to the remote write (`buf[:n]` at the write site),
  `none` when no write was attempted this iteration. -/
  written : Option (List Nat)
  /-- the write went through the TURN transport (vs. the shared uplink). -/
  viaTurn : Bool
  /-- the write call failed (logged; the datagram is lost). -/
  writeFailed : Bool
  /-- the "failed to process pkt before sending" branch fired. -/
  loggedTransformFailure : Bool
deriving DecidableEq, Repr

/-- One iteration of `Proxy.toRemote`'s `for` body (proxy_helper.go lines
44–85), with the packet transform and the remote-write success passed as
oracles and the metrics sink threaded through.  After a successful read
the read error `err` is `nil`; the `if err != nil` that follows the
transform re-tests that same (stale) variable. -/
def toRemoteStep (cfg : ProxyCfg) (r : Registry) (ms : MetricsState)
    (read : ReadResult) (tr : Transform) (writeOk : Bool) :
    StepOutcome × MetricsState :=
  match read with
  | .err => (⟨true, none, false, false, false⟩, ms)
  | .ok data =>
      -- err == nil here, or the loop would have returned above
      let readErr : Option String := none
      -- go func(n, cfg) { ... }  — metric update, dispatched per datagram
      let ms' := updateSentMetrics ms r cfg data.length
      let (payload, loggedT) :=
        if cfg.proxyStatus || cfg.usingTurn then
          -- buf, n, src, dst = ProcessPacketBeforeSending(buf, n, ...)
          ((tr data).1, readErr.isSome)
        else
          (data, false)
      if cfg.usingTurn then
        (⟨false, some payload, true, !writeOk, loggedT⟩, ms')
      else
        (⟨false, some payload, false, !writeOk, loggedT⟩, ms')

/-- The `toRemote` loop run over a finite schedule of iterations (each a
read result plus that iteration's write success), until the schedule is
exhausted or a read error terminates the loop.  Returns the payloads
handed to the remote write, in order, whether the loop terminated, and the
final metrics state. -/
def toRemoteLoop (cfg : ProxyCfg) (r : Registry) (tr : Transform) :
    MetricsState → List (ReadResult × Bool) → List (List Nat) × Bool × MetricsState
  | ms, [] => ([], false, ms)
  | ms, (read, writeOk) :: rest =>
      let (o, ms') := toRemoteStep cfg r ms read tr writeOk
      if o.terminated then
        ([], true, ms')
      else
        let (sent, term, ms'') := toRemoteLoop cfg r tr ms' rest
        (o.written.toList ++ sent, term, ms'')

/-- Split a character list at every occurrence of the separator. -/
def splitOnChar (c : Char) : List Char → List (List Char)
  | [] => [[]]
  | x :: xs =>
      let r := splitOnChar c xs
      if x = c then [] :: r
      else (x :: r.headD []) :: r.tail

/-- One decimal octet of a dotted-quad address, per Go's `net.ParseCIDR`:
1–3 digits, value ≤ 255, no leading zero. -/
def parseOctet (cs : List Char) : Option Nat :=
  if cs.length = 0 ∨ 3 < cs.length then none
  else if ¬ cs.all Char.isDigit then none
  else if 1 < cs.length ∧ cs.headD '0' = '0' then none
  else
    let v := cs.foldl (fun acc c => acc * 10 + (c.toNat - 48)) 0
    if v ≤ 255 then some v else none

/-- A dotted-quad IPv4 address as a 32-bit `Nat`. -/
def parseIPv4 (cs : List Char) : Option Nat :=
  match splitOnChar '.' cs with
  | [a, b, c, d] => do
      let a ← parseOctet a
      let b ← parseOctet b
      let c ← parseOctet c
      let d ← parseOctet d
      pure (((a * 256 + b) * 256 + c) * 256 + d)
  | _ => none

/-- The prefix length in `net.ParseCIDR`: a nonempty decimal number ≤ 32
(Go's `dtoi` accepts it digit by digit, leading zeros included). -/
def parseMaskLen (cs : List Char) : Option Nat :=
  if cs.length = 0 ∨ ¬ cs.all Char.isDigit then none
  else
    let v := cs.foldl (fun acc c => acc * 10 + (c.toNat - 48)) 0
    if v ≤ 32 then some v else none

/-- Model of Go's `net.ParseCIDR` restricted to IPv4: the address part and the prefix
length.  (`GetFreeIp` only validates the string with it; the enumeration
below uses the iplib view of the same string.) -/
def parseCIDR (s : String) : Option (Nat × Nat) :=
  match splitOnChar '/' s.data with
  | [ipCs, mCs] =>
      match parseIPv4 ipCs, parseMaskLen mCs with
      | some ip, some m => some (ip, m)
      | _, _ => none
  | _ => none

/-- iplib's `Net4`: the network base address (host bits masked off) and
the prefix length. -/
structure Net4 where
  base : Nat
  maskLen : Nat
deriving DecidableEq, Repr

/-- iplib `Net4FromStr` on an already-validated CIDR string: mask the
address down to the network base. -/
def net4FromParsed (ip maskLen : Nat) : Net4 :=
  ⟨ip / 2 ^ (32 - maskLen) * 2 ^ (32 - maskLen), maskLen⟩

/-- The highest address of the block (the broadcast address). -/
def Net4.last (n : Net4) : Nat :=
  n.base + 2 ^ (32 - n.maskLen) - 1

/-- iplib `Net4.Contains`: plain subnet membership. -/
def Net4.contains (n : Net4) (a : Nat) : Bool :=
  decide (n.base ≤ a) && decide (a ≤ n.last)

/-- iplib `Net4.FirstAddress`: the network base plus one, except for /31
and /32 where it is the base itself. -/
def Net4.firstAddress (n : Net4) : Nat :=
  if 31 ≤ n.maskLen then n.base else n.base + 1

/-- The fixed source port `models.NmProxyPort` (declared outside the
excerpt; only its fixedness matters to the claims). -/
def NmProxyPort : Nat := 51722

/-- The probe destination `net.ParseIP "127.0.0.1"`. -/
def loopbackIP : Nat := 127 * 2 ^ 24 + 1

/-- Outcome of one `net.DialUDP` probe, classified the way `GetFreeIp`
classifies it: success, an error whose text matches one of the three
"address in use" / "can't (cannot) assign requested address" patterns, or
any other error. -/
inductive DialResult where
  | ok
  | errAddrClass
  | errOther (msg : String)
deriving DecidableEq, Repr

/-- The dial oracle: source address, source port, destination address,
destination port. -/
def DialOracle := Nat → Nat → Nat → Nat → DialResult

/-- Events `GetFreeIp` performs on the system, in order. -/
inductive ProbeEvent where
  /-- the darwin-only `ifconfig lo0 alias` step for a candidate. -/
  | aliased (a : Nat)
  /-- Event: `net.DialUDP` succeeded from this candidate: a socket was opened. -/
  | opened (a : Nat)
  /-- Event: `conn.Close()` on that socket. -/
  | closed (a : Nat)
deriving DecidableEq, Repr

/-- The probing loop of `GetFreeIp` (proxy_helper.go lines 172–205),
run over the list of candidate addresses that iplib enumerates (the
current address followed by every successor `NextIP` can still reach
inside the block): the darwin alias step is best-effort (its failure only
logged), then dial from the candidate and `NmProxyPort` to
`127.0.0.1:dstPort`; on the "address in use" error class advance to the
next candidate — `NextIP` failing with its out-of-range error once the
candidates run out — on any other error return it; on success close the
socket and return the address. -/
def probeLoop (dial : DialOracle) (dstPort : Nat) (darwin : Bool) :
    List Nat → Except String Nat × List ProbeEvent
  | [] => (.error "address out of range", [])
  | a :: rest =>
      let pre : List ProbeEvent := if darwin then [.aliased a] else []
      match dial a NmProxyPort loopbackIP dstPort with
      | .ok => (.ok a, pre ++ [.opened a, .closed a])
      | .errOther msg => (.error msg, pre)
      | .errAddrClass =>
          let r := probeLoop dial dstPort darwin rest
          (r.1, pre ++ r.2)

/-- The candidate addresses `GetFreeIp` can visit, in visiting order:
iplib's `FirstAddress`, then each `+1` successor while it stays inside
the block (`Net4.Contains`), i.e. up to and including `Net4.last`. -/
def Net4.candidates (n : Net4) : List Nat :=
  List.range' n.firstAddress (n.last + 1 - n.firstAddress)

/-- Render a 32-bit address back to a dotted-quad string
(`newAddrs.String()`). -/
def ipToString (ip : Nat) : String :=
  toString (ip / 2 ^ 24 % 256) ++ "." ++ toString (ip / 2 ^ 16 % 256) ++ "." ++
    toString (ip / 2 ^ 8 % 256) ++ "." ++ toString (ip % 256)

/-- The allocator `GetFreeIp(cidrAddr, dstPort)` (proxy_helper.go lines 161–206), with
the dial oracle and the platform flag explicit, also returning the trace
of system events: fail fast on a zero port or an unparsable CIDR (no
probe happens), otherwise probe from the block's first address. -/
def GetFreeIp (cidrAddr : String) (dstPort : Nat) (darwin : Bool)
    (dial : DialOracle) : Except String String × List ProbeEvent :=
  if dstPort = 0 then
    (.error "dst port should be set", [])
  else
    match parseCIDR cidrAddr with
    | none => (.error "invalid CIDR address", [])
    | some (ip, m) =>
        let net4 := net4FromParsed ip m
        let r := probeLoop dial dstPort darwin net4.candidates
        (r.1.map ipToString, r.2)

/-- The slice of a `wgtypes.Peer` that `PeerConnectionStatus` reads.
Times and byte counters live on an abstract integer timeline (Go
nanoseconds). -/
structure WGPeer where
  publicKey : String
  lastHandshakeTime : Int
  receiveBytes : Int
  transmitBytes : Int
deriving DecidableEq, Repr

/-- Duration `3 * time.Minute` on the same timeline (nanoseconds). -/
def threeMinutes : Int := 3 * 60 * 1000000000

/-- The `for` loop of `PeerConnectionStatus`: first entry matching the
public key decides; `LastHandshakeTime.After(now.Add(-3m))` is a strict
comparison, and the byte counters must sum to something positive. -/
def connStatusLoop (now : Int) (key : String) : List WGPeer → Bool
  | [] => false
  | p :: rest =>
      if p.publicKey = key then
        decide (now - threeMinutes < p.lastHandshakeTime) &&
          decide (0 < p.receiveBytes + p.transmitBytes)
      else connStatusLoop now key rest

/-- The monitor `PeerConnectionStatus(peerPublicKey)` (proxy_helper.go lines
209–220), with `wg.GetPeers`'s result and the current time passed in:
a failed fetch reports false, otherwise scan the peer list. -/
def PeerConnectionStatus (getPeersResult : Except String (List WGPeer))
    (now : Int) (peerPublicKey : String) : Bool :=
  match getPeersResult with
  | .error _ => false
  | .ok ifacePeers => connStatusLoop now peerPublicKey ifacePeers

/-! Section: Claim C9: `Reset` with a nil `PeerEndpoint` -/

/-- Claim C9: when `Config.PeerEndpoint` is nil, `Reset` closes the
endpoint and returns at once: no replacement is constructed or started,
both registry indices are left unchanged, and no persistence signal is
sent (so the sender cannot block on it either). -/
theorem reset_nil_endpoint_frame (r : Registry) (cfg : ProxyCfg)
    (startOk : Bool) (lc : Nat) (ch : ChanState)
    (h : cfg.peerEndpoint = none) :
    Reset r cfg startOk lc ch =
      ⟨true, false, false, false, r, false, false⟩ := by
  simp [Reset, h]

/-- Claim C9, witness: a concrete `Reset` call with a nil endpoint, on a
registry that does hold the peer, leaves everything untouched. -/
theorem reset_nil_endpoint_frame_witness :
    Reset ⟨[("pk", ⟨⟨"pk", some ⟨9, 9⟩, none, true, false⟩, 3, ["s1"]⟩)], []⟩
        ⟨"pk", none, none, true, false⟩ true 7 ⟨1, 0, false⟩ =
      ⟨true, false, false, false,
       ⟨[("pk", ⟨⟨"pk", some ⟨9, 9⟩, none, true, false⟩, 3, ["s1"]⟩)], []⟩,
       false, false⟩ :=
  reset_nil_endpoint_frame _ _ _ _ _ rfl

/-! Section: Claim C1: registry lookup miss during `Reset` -/

/-- Concrete config for the C1 scenario: a peer with a known real
endpoint whose registry entry has been removed. -/
def cfgMissC1 : ProxyCfg := ⟨"pk", some ⟨2130706434, 51820⟩, none, true, false⟩

/-- Claim C1, counterexample: on an empty registry `pullLatestConfig`
does surface `peer not found`, but `Reset` does not abort — it constructs
a replacement and (the oracle `Start` succeeding) a new forwarding loop
is started. -/
theorem reset_registry_miss_counterexample :
    pullLatestConfig ⟨[], []⟩ cfgMissC1 = .error "peer not found" ∧
    (Reset ⟨[], []⟩ cfgMissC1 true 7 ⟨1, 0, false⟩).loggedPeerNotFound = true ∧
    (Reset ⟨[], []⟩ cfgMissC1 true 7 ⟨1, 0, false⟩).constructedNew = true ∧
    (Reset ⟨[], []⟩ cfgMissC1 true 7 ⟨1, 0, false⟩).startedLoop = true := by
  refine ⟨rfl, ?_, ?_, ?_⟩ <;> rfl

/-- Claim C1 as amended: a registry miss during `Reset` yields a
`peer not found` error from `pullLatestConfig`, which `Reset` only logs
(there is no early return); `Reset` still constructs a replacement proxy
from the stale config and, whenever the replacement's `Start` succeeds,
a new forwarding loop runs and the persistence signal is still sent. -/
theorem reset_registry_miss_continues (r : Registry) (cfg : ProxyCfg)
    (lc : Nat) (ch : ChanState)
    (hmiss : r.getPeer cfg.peerPublicKey = none)
    (hep : cfg.peerEndpoint ≠ none) :
    pullLatestConfig r cfg = .error "peer not found" ∧
    (Reset r cfg true lc ch).loggedPeerNotFound = true ∧
    (Reset r cfg true lc ch).constructedNew = true ∧
    (Reset r cfg true lc ch).startedLoop = true ∧
    (Reset r cfg true lc ch).signalSent = true := by
  have hpull : pullLatestConfig r cfg = .error "peer not found" := by
    simp [pullLatestConfig, hmiss]
  refine ⟨hpull, ?_, ?_, ?_, ?_⟩ <;>
    simp [Reset, hep, hpull]

/-- Claim C1 amended, witness: the amended behaviour at the concrete
removed-peer scenario. -/
theorem reset_registry_miss_continues_witness :
    pullLatestConfig ⟨[], []⟩ cfgMissC1 = .error "peer not found" ∧
    (Reset ⟨[], []⟩ cfgMissC1 true 9 ⟨1, 0, false⟩).loggedPeerNotFound = true ∧
    (Reset ⟨[], []⟩ cfgMissC1 true 9 ⟨1, 0, false⟩).constructedNew = true ∧
    (Reset ⟨[], []⟩ cfgMissC1 true 9 ⟨1, 0, false⟩).startedLoop = true ∧
    (Reset ⟨[], []⟩ cfgMissC1 true 9 ⟨1, 0, false⟩).signalSent = true :=
  reset_registry_miss_continues ⟨[], []⟩ cfgMissC1 9 ⟨1, 0, false⟩ rfl
    (by simp [cfgMissC1])

/-! Section: Claim C3: the persistence signal send -/

/-- Concrete registry for the C3 scenario: the peer is present, so a
successful `Reset` runs to completion and reaches the signal send. -/
def regSigC3 : Registry :=
  ⟨[("pk", ⟨⟨"pk", some ⟨2130706434, 51820⟩, none, true, false⟩, 3, ["s1"]⟩)],
   [(ConvPeerKeyToHash "pk", ⟨"pk", 3⟩)]⟩

/-- Concrete config for the C3 scenario. -/
def cfgSigC3 : ProxyCfg := ⟨"pk", some ⟨2130706434, 51820⟩, none, true, false⟩

/-- Claim C3, counterexample: `Reset` announces the change with a bare
channel send; on an unbuffered `DumpSignalChan` with no receiver waiting
(capacity 0, nothing consumed), a fully successful `Reset` reaches the
send and the sender blocks on it. -/
theorem reset_signal_blocks_counterexample :
    (Reset regSigC3 cfgSigC3 true 7 ⟨0, 0, false⟩).signalSent = true ∧
    (Reset regSigC3 cfgSigC3 true 7 ⟨0, 0, false⟩).blockedOnSignal = true := by
  exact ⟨rfl, rfl⟩

/-- Claim C3 as amended: the persistence notification is an unconditional
(bare) channel send, reached on every `Reset` whose replacement starts;
the sender blocks exactly when no receiver is waiting on the channel and
its buffer is full — it is non-blocking only when the channel provides
free buffer space or a ready consumer. -/
theorem reset_signal_blocking_semantics (r : Registry) (cfg : ProxyCfg)
    (lc : Nat) (ch : ChanState) (hep : cfg.peerEndpoint ≠ none) :
    (Reset r cfg true lc ch).signalSent = true ∧
    (Reset r cfg true lc ch).blockedOnSignal =
      (!ch.receiverWaiting && decide (ch.capacity ≤ ch.queued)) := by
  constructor <;> simp [Reset, hep, bareSendBlocks]

/-- Claim C3 amended, witness: at a concrete successful `Reset` with a
buffered, currently-empty channel the send is reached and does not
block. -/
theorem reset_signal_blocking_semantics_witness :
    (Reset regSigC3 cfgSigC3 true 7 ⟨1, 0, false⟩).signalSent = true ∧
    (Reset regSigC3 cfgSigC3 true 7 ⟨1, 0, false⟩).blockedOnSignal =
      (!(false : Bool) && decide ((1 : Nat) ≤ (0 : Nat))) :=
  reset_signal_blocking_semantics regSigC3 cfgSigC3 7 ⟨1, 0, false⟩
    (by simp [cfgSigC3])

/-! Section: Claim C2: transform failure handling in the to-remote path -/

/-- Concrete config for the C2 scenario: relaying active. -/
def cfgTrC2 : ProxyCfg := ⟨"pk", some ⟨2130706434, 51820⟩, none, true, false⟩

/-- A concrete transform that visibly alters the datagram. -/
def trAlterC2 : Transform := fun d => (d ++ [9], "srcH", "dstH")

/-- Claim C2, counterexample: the transform returns no error, and the
"failed to process pkt" branch re-tests the read error, which is nil on
every iteration that reaches it — so it never fires; the loop forwards
the transform's output, never the original datagram.  Concretely, with
the transform altering `[1,2,3]` to `[1,2,3,9]`, the written payload is
the transformed one and differs from the original. -/
theorem toRemote_transform_counterexample :
    (toRemoteStep cfgTrC2 ⟨[], []⟩ [] (.ok [1, 2, 3]) trAlterC2 true).1.written =
      some [1, 2, 3, 9] ∧
    some [1, 2, 3, 9] ≠ some ([1, 2, 3] : List Nat) ∧
    (toRemoteStep cfgTrC2 ⟨[], []⟩ [] (.ok [1, 2, 3]) trAlterC2
        true).1.loggedTransformFailure = false := by
  refine ⟨rfl, by decide, rfl⟩

/-- Claim C2 as amended: the pre-send transform cannot fail (it returns
no error); the error checked right after it is the stale read error,
necessarily nil there, so the transform-failure log never fires; the loop
never terminates on this path and, whenever relay or TURN mode is active,
always forwards the transform's output — there is no fallback that
forwards the untransformed datagram. -/
theorem toRemote_transform_never_fails (cfg : ProxyCfg) (r : Registry)
    (ms : MetricsState) (d : List Nat) (tr : Transform) (writeOk : Bool)
    (hmode : cfg.proxyStatus || cfg.usingTurn = true) :
    (toRemoteStep cfg r ms (.ok d) tr writeOk).1.loggedTransformFailure = false ∧
    (toRemoteStep cfg r ms (.ok d) tr writeOk).1.terminated = false ∧
    (toRemoteStep cfg r ms (.ok d) tr writeOk).1.written = some (tr d).1 := by
  cases hturn : cfg.usingTurn <;>
    simp [toRemoteStep, hturn] <;>
    simp [hturn] at hmode <;>
    simp [hmode]

/-- Claim C2 amended, witness: the amended behaviour at the concrete
altered-datagram scenario. -/
theorem toRemote_transform_never_fails_witness :
    (toRemoteStep cfgTrC2 ⟨[], []⟩ [] (.ok [1, 2, 3]) trAlterC2 true).1.loggedTransformFailure = false ∧
    (toRemoteStep cfgTrC2 ⟨[], []⟩ [] (.ok [1, 2, 3]) trAlterC2 true).1.terminated = false ∧
    (toRemoteStep cfgTrC2 ⟨[], []⟩ [] (.ok [1, 2, 3]) trAlterC2 true).1.written =
      some (trAlterC2 [1, 2, 3]).1 :=
  toRemote_transform_never_fails cfgTrC2 ⟨[], []⟩ [] [1, 2, 3] trAlterC2 true rfl

/-! Section: Claim C6: `GetFreeIp` fails fast on bad configuration -/

/-- Claim C6: with a zero destination port or an unparsable CIDR,
`GetFreeIp` returns an error, performs no probe (its event trace is
empty), and its result does not depend on the dial oracle at all. -/
theorem getFreeIp_fail_fast (cidrAddr : String) (dstPort : Nat)
    (darwin : Bool) (dial dial' : DialOracle)
    (h : dstPort = 0 ∨ parseCIDR cidrAddr = none) :
    (∃ msg, (GetFreeIp cidrAddr dstPort darwin dial).1 = .error msg) ∧
    (GetFreeIp cidrAddr dstPort darwin dial).2 = [] ∧
    GetFreeIp cidrAddr dstPort darwin dial =
      GetFreeIp cidrAddr dstPort darwin dial' := by
  rcases h with h | h
  · subst h
    exact ⟨⟨"dst port should be set", rfl⟩, rfl, rfl⟩
  · by_cases hz : dstPort = 0
    · subst hz
      exact ⟨⟨"dst port should be set", rfl⟩, rfl, rfl⟩
    · refine ⟨⟨"invalid CIDR address", ?_⟩, ?_, ?_⟩ <;>
        simp [GetFreeIp, hz, h]

/-- Claim C6, witness: the zero-port and bad-CIDR cases at concrete
inputs (two distinct dial oracles, same outcome). -/
theorem getFreeIp_fail_fast_witness :
    ((∃ msg, (GetFreeIp "10.0.0.0/24" 0 false (fun _ _ _ _ => .ok)).1 = .error msg) ∧
      (GetFreeIp "10.0.0.0/24" 0 false (fun _ _ _ _ => .ok)).2 = [] ∧
      GetFreeIp "10.0.0.0/24" 0 false (fun _ _ _ _ => .ok) =
        GetFreeIp "10.0.0.0/24" 0 false (fun _ _ _ _ => .errAddrClass)) ∧
    ((∃ msg, (GetFreeIp "not-a-cidr" 51820 false (fun _ _ _ _ => .ok)).1 = .error msg) ∧
      (GetFreeIp "not-a-cidr" 51820 false (fun _ _ _ _ => .ok)).2 = [] ∧
      GetFreeIp "not-a-cidr" 51820 false (fun _ _ _ _ => .ok) =
        GetFreeIp "not-a-cidr" 51820 false (fun _ _ _ _ => .errAddrClass)) :=
  ⟨getFreeIp_fail_fast "10.0.0.0/24" 0 false _ _ (Or.inl rfl),
   getFreeIp_fail_fast "not-a-cidr" 51820 false _ _ (Or.inr rfl)⟩

/-! Section: Claim C8: read errors are terminal, write errors are not -/

/-- Claim C8: in the forwarding loop a local-socket read error returns
from the loop at once — nothing is written for it and no later iteration
runs — while a failed remote write is only logged (`writeFailed`), the
datagram is dropped, and the loop goes on to process the remaining
schedule exactly as it would from the stepped state. -/
theorem toRemote_read_terminal_write_not (cfg : ProxyCfg) (r : Registry)
    (tr : Transform) (ms : MetricsState) (rest : List (ReadResult × Bool))
    (d : List Nat) (w : Bool) :
    (toRemoteLoop cfg r tr ms ((.err, w) :: rest) = ([], true, ms)) ∧
    ((toRemoteStep cfg r ms .err tr w).1.written = none) ∧
    ((toRemoteStep cfg r ms (.ok d) tr false).1.writeFailed = true) ∧
    ((toRemoteStep cfg r ms (.ok d) tr false).1.terminated = false) ∧
    (toRemoteLoop cfg r tr ms ((.ok d, false) :: rest) =
      ((toRemoteStep cfg r ms (.ok d) tr false).1.written.toList ++
          (toRemoteLoop cfg r tr (toRemoteStep cfg r ms (.ok d) tr false).2 rest).1,
        (toRemoteLoop cfg r tr (toRemoteStep cfg r ms (.ok d) tr false).2 rest).2)) := by
  refine ⟨?_, rfl, ?_, ?_, ?_⟩
  · simp [toRemoteLoop, toRemoteStep]
  · cases hturn : cfg.usingTurn <;> simp [toRemoteStep, hturn]
  · cases hturn : cfg.usingTurn <;> simp [toRemoteStep, hturn]
  · have hterm : (toRemoteStep cfg r ms (.ok d) tr false).1.terminated = false := by
      cases hturn : cfg.usingTurn <;> simp [toRemoteStep, hturn]
    simp only [toRemoteLoop, hterm]
    simp

/-! Section: Claim C4: `PeerConnectionStatus` -/

/-- The scan of the peer list decides connectivity exactly by the
existence of a matching, recently-handshaken, traffic-bearing entry
(public keys assumed pairwise distinct, as in a tunnel device's peer
table). -/
theorem connStatusLoop_iff (now : Int) (key : String) :
    ∀ (peers : List WGPeer), (peers.map WGPeer.publicKey).Nodup →
      (connStatusLoop now key peers = true ↔
        ∃ p ∈ peers, p.publicKey = key ∧
          now - threeMinutes < p.lastHandshakeTime ∧
          0 < p.receiveBytes + p.transmitBytes)
  | [], _ => by simp [connStatusLoop]
  | p :: rest, hnd => by
      simp only [List.map_cons, List.nodup_cons] at hnd
      obtain ⟨hp, hrest⟩ := hnd
      by_cases hk : p.publicKey = key
      · simp only [connStatusLoop, if_pos hk, Bool.and_eq_true, decide_eq_true_eq]
        constructor
        · rintro ⟨h1, h2⟩
          exact ⟨p, List.mem_cons_self p rest, hk, h1, h2⟩
        · rintro ⟨q, hq, hqk, h1, h2⟩
          rcases List.mem_cons.mp hq with rfl | hq'
          · exact ⟨h1, h2⟩
          · exact absurd (hk ▸ hqk ▸ List.mem_map_of_mem WGPeer.publicKey hq') hp
      · simp only [connStatusLoop, if_neg hk]
        rw [connStatusLoop_iff now key rest hrest]
        constructor
        · rintro ⟨q, hq, hrest'⟩
          exact ⟨q, List.mem_cons_of_mem p hq, hrest'⟩
        · rintro ⟨q, hq, hqk, h1, h2⟩
          rcases List.mem_cons.mp hq with rfl | hq'
          · exact absurd hqk hk
          · exact ⟨q, hq', hqk, h1, h2⟩

/-- Claim C4: `PeerConnectionStatus` is true iff the peer list was
fetched without error, it holds an entry with the requested public key,
that entry's last handshake is within the last 3 minutes (strictly), and
its received+sent byte count is positive; in particular it is false when
the fetch fails and false for a peer absent from the list. -/
theorem peerConnectionStatus_spec (peers : List WGPeer) (now : Int)
    (key : String) (hnd : (peers.map WGPeer.publicKey).Nodup) :
    (∀ msg, PeerConnectionStatus (.error msg) now key = false) ∧
    (PeerConnectionStatus (.ok peers) now key = true ↔
      ∃ p ∈ peers, p.publicKey = key ∧
        now - threeMinutes < p.lastHandshakeTime ∧
        0 < p.receiveBytes + p.transmitBytes) ∧
    ((∀ p ∈ peers, p.publicKey ≠ key) →
      PeerConnectionStatus (.ok peers) now key = false) := by
  refine ⟨fun _ => rfl, connStatusLoop_iff now key peers hnd, fun habs => ?_⟩
  rcases hb : PeerConnectionStatus (.ok peers) now key with _ | _
  · rfl
  · obtain ⟨q, hq, hqk, -, -⟩ := (connStatusLoop_iff now key peers hnd).mp hb
    exact absurd hqk (habs q hq)

/-- Claim C4, witness: a matching fresh peer with traffic reports
connected; an absent key reports false; a failed fetch reports false. -/
theorem peerConnectionStatus_spec_witness :
    PeerConnectionStatus (.ok [⟨"pk", 100, 1, 1⟩]) 0 "pk" = true ∧
    PeerConnectionStatus (.ok [⟨"other", 100, 1, 1⟩]) 0 "pk" = false ∧
    PeerConnectionStatus (.error "fetch failed") 0 "pk" = false := by
  refine ⟨?_, ?_, ?_⟩
  · exact (peerConnectionStatus_spec [⟨"pk", 100, 1, 1⟩] 0 "pk" (by decide)).2.1.mpr
      ⟨⟨"pk", 100, 1, 1⟩, by decide, rfl, by decide, by decide⟩
  · exact (peerConnectionStatus_spec [⟨"other", 100, 1, 1⟩] 0 "pk" (by decide)).2.2
      (by decide)
  · exact (peerConnectionStatus_spec [] 0 "pk" (by decide)).1 "fetch failed"

/-! Section: Claim C7: "bytes sent" metric updates -/

/-- Reading back the cell just written. -/
theorem getMetric_updateMetric_self (ms : MetricsState) (s k : String)
    (m : Metric) : getMetric (updateMetric ms s k m) s k = m := by
  simp [getMetric, updateMetric, List.find?]

/-- Writing one cell leaves every other cell unchanged. -/
theorem getMetric_updateMetric_ne (ms : MetricsState) (s k s' k' : String)
    (m : Metric) (h : (s', k') ≠ (s, k)) :
    getMetric (updateMetric ms s k m) s' k' = getMetric ms s' k' := by
  simp only [getMetric, updateMetric, List.find?]
  rw [decide_eq_false (by simpa using h.symm)]

/-- The per-server fold of the metrics goroutine, as a function (the
body of `updateSentMetrics`). -/
def sentStep (key : String) (n : Nat) (acc : MetricsState) (srv : String) :
    MetricsState :=
  updateMetric acc srv key ⟨(getMetric acc srv key).trafficSent + (n : Int)⟩

/-- Folding over servers not containing `s` (or at a different peer key)
does not touch the `(s, k)` cell. -/
theorem foldSent_untouched (key : String) (n : Nat) :
    ∀ (l : List String) (ms : MetricsState) (s k : String),
      s ∉ l ∨ k ≠ key →
      getMetric (l.foldl (sentStep key n) ms) s k = getMetric ms s k
  | [], _, _, _, _ => rfl
  | srv :: t, ms, s, k, h => by
      have htail : s ∉ t ∨ k ≠ key := by
        rcases h with h | h
        · exact Or.inl (fun hm => h (List.mem_cons_of_mem srv hm))
        · exact Or.inr h
      have hne : (s, k) ≠ (srv, key) := by
        rcases h with h | h
        · intro he
          exact h (by rw [show s = srv from congrArg Prod.fst he]; exact
            List.mem_cons_self srv t)
        · intro he
          exact h (congrArg Prod.snd he)
      calc getMetric ((srv :: t).foldl (sentStep key n) ms) s k
          = getMetric (sentStep key n ms srv) s k :=
            foldSent_untouched key n t (sentStep key n ms srv) s k htail
        _ = getMetric ms s k := getMetric_updateMetric_ne _ _ _ _ _ _ hne

/-- Folding over a duplicate-free server list adds exactly `n` to the
cell of every listed server (at the peer's key). -/
theorem foldSent_mem (key : String) (n : Nat) :
    ∀ (l : List String) (ms : MetricsState) (srv : String),
      l.Nodup → srv ∈ l →
      (getMetric (l.foldl (sentStep key n) ms) srv key).trafficSent =
        (getMetric ms srv key).trafficSent + (n : Int)
  | [], _, _, _, hmem => absurd hmem (List.not_mem_nil _)
  | a :: t, ms, srv, hnd, hmem => by
      simp only [List.nodup_cons] at hnd
      obtain ⟨hat, hndt⟩ := hnd
      rcases List.mem_cons.mp hmem with rfl | hmt
      · have huntouched :
            getMetric (t.foldl (sentStep key n) (sentStep key n ms srv)) srv key =
              getMetric (sentStep key n ms srv) srv key :=
          foldSent_untouched key n t _ srv key (Or.inl hat)
        rw [List.foldl_cons, huntouched, sentStep, getMetric_updateMetric_self]
      · have hsrva : srv ≠ a := fun he => hat (he ▸ hmt)
        rw [List.foldl_cons, foldSent_mem key n t (sentStep key n ms a) srv hndt hmt,
          sentStep, getMetric_updateMetric_ne _ _ _ _ _ _
            (fun he => hsrva (congrArg Prod.fst he))]

/-- One fold step never decreases any cell. -/
theorem sentStep_mono (key : String) (n : Nat) (ms : MetricsState)
    (srv s k : String) :
    (getMetric ms s k).trafficSent ≤
      (getMetric (sentStep key n ms srv) s k).trafficSent := by
  by_cases h : (s, k) = (srv, key)
  · have h1 : s = srv := congrArg Prod.fst h
    have h2 : k = key := congrArg Prod.snd h
    subst h1; subst h2
    rw [sentStep, getMetric_updateMetric_self]
    exact le_add_of_nonneg_right (Int.natCast_nonneg n)
  · rw [sentStep, getMetric_updateMetric_ne _ _ _ _ _ _ h]

/-- The whole fold never decreases any cell. -/
theorem foldSent_mono (key : String) (n : Nat) :
    ∀ (l : List String) (ms : MetricsState) (s k : String),
      (getMetric ms s k).trafficSent ≤
        (getMetric (l.foldl (sentStep key n) ms) s k).trafficSent
  | [], _, _, _ => le_refl _
  | a :: t, ms, s, k =>
      le_trans (sentStep_mono key n ms a s k)
        (foldSent_mono key n t (sentStep key n ms a) s k)

/-- The update `updateSentMetrics` is the fold over the peer's server list. -/
theorem updateSentMetrics_eq_fold (ms : MetricsState) (r : Registry)
    (cfg : ProxyCfg) (n : Nat) (e : ConnEntry)
    (hps : cfg.proxyStatus = true)
    (hfound : r.getPeer cfg.peerPublicKey = some e) :
    updateSentMetrics ms r cfg n =
      e.serverMap.foldl (sentStep cfg.peerPublicKey n) ms := by
  simp only [updateSentMetrics, hps, hfound, if_true]
  rfl

/-- Claim C7: for a datagram of length `n` read while relaying is active
(`ProxyStatus`), the dispatched metric update adds exactly `n` to the
"bytes sent" counter of every server the peer is registered under; the
counter never decreases under this update, whatever the registry or
config; the update is a no-op when the peer has no registry entry; and
the forwarding outcome of the iteration is independent of the metrics
state (the update cannot block or alter forwarding). -/
theorem toRemote_metrics_spec (cfg : ProxyCfg) (r : Registry)
    (ms : MetricsState) (d : List Nat) (tr : Transform) (w : Bool)
    (e : ConnEntry) (srv s k : String)
    (hps : cfg.proxyStatus = true)
    (hfound : r.getPeer cfg.peerPublicKey = some e)
    (hnd : e.serverMap.Nodup) (hsrv : srv ∈ e.serverMap) :
    ((toRemoteStep cfg r ms (.ok d) tr w).2 =
      updateSentMetrics ms r cfg d.length) ∧
    ((getMetric (updateSentMetrics ms r cfg d.length) srv
        cfg.peerPublicKey).trafficSent =
      (getMetric ms srv cfg.peerPublicKey).trafficSent + (d.length : Int)) ∧
    (∀ (r' : Registry) (cfg' : ProxyCfg) (n : Nat),
      (getMetric ms s k).trafficSent ≤
        (getMetric (updateSentMetrics ms r' cfg' n) s k).trafficSent) ∧
    (∀ (cfg' : ProxyCfg) (n : Nat), r.getPeer cfg'.peerPublicKey = none →
      updateSentMetrics ms r cfg' n = ms) ∧
    (∀ (ms' : MetricsState), (toRemoteStep cfg r ms (.ok d) tr w).1 =
      (toRemoteStep cfg r ms' (.ok d) tr w).1) := by
  refine ⟨?_, ?_, ?_, ?_, ?_⟩
  · cases hturn : cfg.usingTurn <;> simp [toRemoteStep, hturn]
  · rw [updateSentMetrics_eq_fold ms r cfg d.length e hps hfound]
    exact foldSent_mem cfg.peerPublicKey d.length e.serverMap ms srv hnd hsrv
  · intro r' cfg' n
    simp only [updateSentMetrics]
    rcases hps' : cfg'.proxyStatus with _ | _
    · simp
    · rcases hfound' : r'.getPeer cfg'.peerPublicKey with _ | e'
      · simp
      · simp only [if_true]
        exact foldSent_mono cfg'.peerPublicKey n e'.serverMap ms s k
  · intro cfg' n hnone
    simp only [updateSentMetrics, hnone]
    cases cfg'.proxyStatus <;> rfl
  · intro ms'
    cases hturn : cfg.usingTurn <;> simp [toRemoteStep, hturn]

/-- Concrete peer config for the C7 witness. -/
def cfgMet : ProxyCfg := ⟨"pk", some ⟨2130706434, 51820⟩, none, true, false⟩

/-- Concrete registry for the C7 witness: the peer registered under two
servers. -/
def regMet : Registry := ⟨[("pk", ⟨cfgMet, 3, ["s1", "s2"]⟩)], []⟩

/-- Claim C7, witness: for a 2-byte datagram the "bytes sent" counter of
server `s1` grows by exactly 2 from the empty metrics state. -/
theorem toRemote_metrics_spec_witness :
    (getMetric (updateSentMetrics [] regMet cfgMet 2) "s1" "pk").trafficSent =
      (getMetric ([] : MetricsState) "s1" "pk").trafficSent + (2 : Int) :=
  (toRemote_metrics_spec cfgMet regMet [] [1, 2] (fun d => (d, "", "")) true
      ⟨cfgMet, 3, ["s1", "s2"]⟩ "s1" "s1" "pk" rfl rfl (by decide) (by decide)).2.1

/-! Section: Claims C5 and C10: the `GetFreeIp` probing algorithm -/

/-- A parsed prefix length is at most 32. -/
theorem parseMaskLen_le (cs : List Char) (m : Nat)
    (h : parseMaskLen cs = some m) : m ≤ 32 := by
  simp only [parseMaskLen] at h
  split at h
  · exact absurd h (by simp)
  · split at h
    · cases Option.some.inj h
      assumption
    · exact absurd h (by simp)

/-- The prefix length coming out of `parseCIDR` is at most 32. -/
theorem parseCIDR_maskLen_le (s : String) (ip m : Nat)
    (h : parseCIDR s = some (ip, m)) : m ≤ 32 := by
  unfold parseCIDR at h
  split at h
  · next ipCs mCs hsplit =>
      split at h
      · next ip' m' hip hm =>
          have h2 : m' = m := congrArg Prod.snd (Option.some.inj h)
          exact h2 ▸ parseMaskLen_le mCs m' hm
      · exact absurd h (by simp)
  · exact absurd h (by simp)

/-- The candidate list is never empty and begins at the block's first
address. -/
theorem candidates_head (n : Net4) :
    n.candidates.head? = some n.firstAddress := by
  have hk : 0 < n.last + 1 - n.firstAddress := by
    unfold Net4.last Net4.firstAddress
    have hpow : 0 < 2 ^ (32 - n.maskLen) := Nat.pos_pow_of_pos _ (by omega)
    by_cases h31 : 31 ≤ n.maskLen
    · rw [if_pos h31]; omega
    · rw [if_neg h31]
      have h2 : 2 ≤ 2 ^ (32 - n.maskLen) := by
        calc 2 = 2 ^ 1 := rfl
        _ ≤ 2 ^ (32 - n.maskLen) := Nat.pow_le_pow_right (by omega) (by omega)
      omega
  unfold Net4.candidates
  rw [List.head?_range', if_neg (by omega)]

/-- Every candidate lies inside the block. -/
theorem candidates_contains (n : Net4) :
    ∀ a ∈ n.candidates, n.contains a = true := by
  intro a ha
  unfold Net4.candidates at ha
  rw [List.mem_range'_1] at ha
  unfold Net4.firstAddress at ha
  simp only [Net4.contains, Bool.and_eq_true, decide_eq_true_eq]
  by_cases h31 : 31 ≤ n.maskLen
  · rw [if_pos h31] at ha
    omega
  · rw [if_neg h31] at ha
    omega

/-- If every candidate's dial fails with the "address in use" class, the
probe ends in the address-advancement (out of range) error. -/
theorem probeLoop_all_busy (dial : DialOracle) (dstPort : Nat) (darwin : Bool) :
    ∀ (l : List Nat),
      (∀ a ∈ l, dial a NmProxyPort loopbackIP dstPort = .errAddrClass) →
      (probeLoop dial dstPort darwin l).1 = .error "address out of range"
  | [], _ => rfl
  | a :: t, h => by
      have ha := h a (List.mem_cons_self a t)
      simp only [probeLoop, ha]
      exact probeLoop_all_busy dial dstPort darwin t
        (fun b hb => h b (List.mem_cons_of_mem a hb))

/-- The addresses of the sockets a probe trace opened, in order. -/
def openedAddrs : List ProbeEvent → List Nat
  | [] => []
  | .opened a :: t => a :: openedAddrs t
  | .aliased _ :: t => openedAddrs t
  | .closed _ :: t => openedAddrs t

/-- The map `openedAddrs` distributes over concatenation. -/
theorem openedAddrs_append :
    ∀ (l1 l2 : List ProbeEvent),
      openedAddrs (l1 ++ l2) = openedAddrs l1 ++ openedAddrs l2
  | [], _ => rfl
  | .opened a :: t, l2 => congrArg (List.cons a) (openedAddrs_append t l2)
  | .aliased _ :: t, l2 => openedAddrs_append t l2
  | .closed _ :: t, l2 => openedAddrs_append t l2

/-- The per-candidate alias events open no socket. -/
theorem openedAddrs_alias (darwin : Bool) (b : Nat) :
    openedAddrs (if darwin then [ProbeEvent.aliased b] else []) = [] := by
  cases darwin <;> rfl

/-- Anatomy of a successful probe: the returned address is one of the
candidates, its dial (from the fixed `NmProxyPort` source port to the
loopback destination) succeeded, and the trace is some socket-free prefix
followed by opening and then closing exactly that address's socket. -/
theorem probeLoop_ok_shape (dial : DialOracle) (dstPort : Nat) (darwin : Bool) :
    ∀ (l : List Nat) (a : Nat) (tr : List ProbeEvent),
      probeLoop dial dstPort darwin l = (.ok a, tr) →
      a ∈ l ∧ dial a NmProxyPort loopbackIP dstPort = .ok ∧
        ∃ pre, tr = pre ++ [.opened a, .closed a] ∧ openedAddrs pre = []
  | [], a, tr, h => by simp [probeLoop] at h
  | b :: t, a, tr, h => by
      rcases hd : dial b NmProxyPort loopbackIP dstPort with _ | _ | msg
      · simp only [probeLoop, hd, Prod.mk.injEq] at h
        obtain ⟨hok, htr⟩ := h
        cases Except.ok.inj hok
        exact ⟨List.mem_cons_self b t, hd,
          if darwin then [ProbeEvent.aliased b] else [], htr.symm,
          openedAddrs_alias darwin b⟩
      · simp only [probeLoop, hd, Prod.mk.injEq] at h
        obtain ⟨hok, htr⟩ := h
        have hpair : probeLoop dial dstPort darwin t =
            (.ok a, (probeLoop dial dstPort darwin t).2) := by
          rw [← hok]
        obtain ⟨hmem, hdial, pre, hpre, hopen⟩ :=
          probeLoop_ok_shape dial dstPort darwin t a _ hpair
        refine ⟨List.mem_cons_of_mem b hmem, hdial,
          (if darwin then [ProbeEvent.aliased b] else []) ++ pre, ?_, ?_⟩
        · rw [← htr, hpre, List.append_assoc]
        · rw [openedAddrs_append, openedAddrs_alias, hopen]
          rfl
      · simp [probeLoop, hd] at h

/-- Claim C5: given a parsable CIDR and a nonzero port, `GetFreeIp` runs
the probe over the block's candidate addresses, starting at the block's
first address; an "address in use"-class dial failure advances to the
next candidate and retries; any other dial error is returned immediately;
if every candidate is busy the error surfaces from address advancement
(out of range); and a successful result is an address contained in the
given CIDR block. -/
theorem getFreeIp_probing_spec (cidrAddr : String) (dstPort : Nat)
    (darwin : Bool) (dial : DialOracle) (ip m : Nat)
    (hport : dstPort ≠ 0) (hparse : parseCIDR cidrAddr = some (ip, m)) :
    (GetFreeIp cidrAddr dstPort darwin dial =
      ((probeLoop dial dstPort darwin (net4FromParsed ip m).candidates).1.map
          ipToString,
        (probeLoop dial dstPort darwin (net4FromParsed ip m).candidates).2)) ∧
    ((net4FromParsed ip m).candidates.head? =
      some (net4FromParsed ip m).firstAddress) ∧
    (∀ (a : Nat) (rest : List Nat),
      dial a NmProxyPort loopbackIP dstPort = .errAddrClass →
      probeLoop dial dstPort darwin (a :: rest) =
        ((probeLoop dial dstPort darwin rest).1,
          (if darwin then [ProbeEvent.aliased a] else []) ++
            (probeLoop dial dstPort darwin rest).2)) ∧
    (∀ (a : Nat) (rest : List Nat) (msg : String),
      dial a NmProxyPort loopbackIP dstPort = .errOther msg →
      (probeLoop dial dstPort darwin (a :: rest)).1 = .error msg) ∧
    ((∀ a ∈ (net4FromParsed ip m).candidates,
        dial a NmProxyPort loopbackIP dstPort = .errAddrClass) →
      (GetFreeIp cidrAddr dstPort darwin dial).1 =
        .error "address out of range") ∧
    (∀ s, (GetFreeIp cidrAddr dstPort darwin dial).1 = .ok s →
      ∃ a, s = ipToString a ∧ (net4FromParsed ip m).contains a = true) := by
  have hrun : GetFreeIp cidrAddr dstPort darwin dial =
      ((probeLoop dial dstPort darwin (net4FromParsed ip m).candidates).1.map
          ipToString,
        (probeLoop dial dstPort darwin (net4FromParsed ip m).candidates).2) := by
    simp [GetFreeIp, hport, hparse]
  refine ⟨hrun, candidates_head _, ?_, ?_, ?_, ?_⟩
  · intro a rest ha
    simp [probeLoop, ha]
  · intro a rest msg ha
    simp [probeLoop, ha]
  · intro hbusy
    rw [hrun]
    dsimp only
    rw [probeLoop_all_busy dial dstPort darwin _ hbusy]
    rfl
  · intro s hs
    rw [hrun] at hs
    dsimp only at hs
    rcases hr : (probeLoop dial dstPort darwin
        (net4FromParsed ip m).candidates).1 with msg | a
    · rw [hr] at hs
      exact absurd hs (by simp [Except.map])
    · rw [hr] at hs
      have hsa : s = ipToString a := by
        simpa [Except.map] using hs.symm
      have hpair : probeLoop dial dstPort darwin (net4FromParsed ip m).candidates =
          (.ok a, (probeLoop dial dstPort darwin (net4FromParsed ip m).candidates).2) := by
        rw [← hr]
      obtain ⟨hmem, -, -⟩ :=
        probeLoop_ok_shape dial dstPort darwin _ a _ hpair
      exact ⟨a, hsa, candidates_contains _ a hmem⟩

/-- Claim C5, witness: on `127.1.0.0/24` with port 51820 and every dial
succeeding, the returned string renders an address contained in the
block. -/
theorem getFreeIp_probing_spec_witness :
    ∃ a, "127.1.0.1" = ipToString a ∧
      (net4FromParsed 2130771968 24).contains a = true :=
  (getFreeIp_probing_spec "127.1.0.0/24" 51820 false (fun _ _ _ _ => .ok)
      2130771968 24 (by decide) rfl).2.2.2.2.2 "127.1.0.1" rfl

/-- Claim C10: every address `GetFreeIp` returns was validated by a
successful UDP dial from that address and the fixed source port
`NmProxyPort` to `127.0.0.1:dstPort`, and the trace shows the probe
socket for it being opened and then closed (no other socket was ever
opened) before the function returns. -/
theorem getFreeIp_probe_validated (cidrAddr : String) (dstPort : Nat)
    (darwin : Bool) (dial : DialOracle) (s : String) (tr : List ProbeEvent)
    (h : GetFreeIp cidrAddr dstPort darwin dial = (.ok s, tr)) :
    ∃ a pre, s = ipToString a ∧
      dial a NmProxyPort loopbackIP dstPort = .ok ∧
      tr = pre ++ [.opened a, .closed a] ∧
      openedAddrs pre = [] := by
  by_cases hz : dstPort = 0
  · rw [GetFreeIp, if_pos hz] at h
    exact absurd (congrArg Prod.fst h) (by simp)
  rcases hp : parseCIDR cidrAddr with _ | ⟨ip, m⟩
  · simp only [GetFreeIp, if_neg hz, hp] at h
    exact absurd (congrArg Prod.fst h) (by simp)
  · simp only [GetFreeIp, if_neg hz, hp] at h
    have h1 := congrArg Prod.fst h
    have h2 := congrArg Prod.snd h
    dsimp only at h1 h2
    rcases hr : (probeLoop dial dstPort darwin
        (net4FromParsed ip m).candidates).1 with msg | a
    · rw [hr] at h1
      exact absurd h1 (by simp [Except.map])
    · rw [hr] at h1
      have hsa : s = ipToString a := by
        simpa [Except.map] using h1.symm
      have hpair : probeLoop dial dstPort darwin (net4FromParsed ip m).candidates =
          (.ok a, tr) := by
        rw [← hr, ← h2]
      obtain ⟨-, hdial, pre, hpre, hopen⟩ :=
        probeLoop_ok_shape dial dstPort darwin _ a tr hpair
      exact ⟨a, pre, hsa, hdial, hpre, hopen⟩

/-- Claim C10, witness: the concrete all-free probe on `127.1.0.0/24`
dialed the returned address `127.1.0.1` from `NmProxyPort` and its trace
is exactly open-then-close of that address's socket. -/
theorem getFreeIp_probe_validated_witness :
    ∃ a pre, "127.1.0.1" = ipToString a ∧
      (fun _ _ _ _ => DialResult.ok) a NmProxyPort loopbackIP 51820 =
        DialResult.ok ∧
      ([ProbeEvent.opened 2130771969, ProbeEvent.closed 2130771969] :
          List ProbeEvent) = pre ++ [.opened a, .closed a] ∧
      openedAddrs pre = [] :=
  getFreeIp_probe_validated "127.1.0.0/24" 51820 false (fun _ _ _ _ => .ok)
    "127.1.0.1" [.opened 2130771969, .closed 2130771969] rfl

end Netclient
